import Mathlib

/-!
Shallow embedding of the nexusStream secure session protocol
(`src/services/secureProtocolService.ts` and the handshake / rotation
handlers of `src/components/P2PCall.tsx`).

Byte strings are modelled as `List Nat` (with `< 256` bounds carried as
hypotheses where they matter).  The Web Crypto primitives (key import and
export, ECDSA sign/verify, ECDH, SHA-256) and the JSON / base64 codecs the
service calls are external to the repository, so they are abstracted into a
record of primitive operations `CryptoPrims`; operations that can reject
(throw) in Web Crypto return `Option`.  Key objects and JWK values are
abstract type parameters.  JS strings are modelled as Lean `String`, with
the JS operations (`padStart`, `join`, `substring`, `fromCharCode`,
`charCodeAt`) acting on the underlying character sequence.
-/

/-- Byte strings (`ArrayBuffer` / `Uint8Array` contents). -/
abbrev Bytes := List Nat

/-- The three wire discriminators of `HandshakePayload.type`
(`src/types.ts`). -/
inductive HandshakeType where
  | secureHandshakeInit
  | secureHandshakeResp
  | secureKeyRotation
deriving DecidableEq

/-- `HandshakePayload` from `src/types.ts`: the only datum on the wire. -/
structure HandshakePayload (Jwk : Type) where
  type : HandshakeType
  identityPublicKey : Jwk
  ephemeralPublicKey : Jwk
  signature : String
  timestamp : Nat
deriving DecidableEq

/-- `CryptoIdentity` from `src/types.ts`. -/
structure CryptoIdentity (Key : Type) where
  publicKey : Key
  privateKey : Key
  publicKeyFingerprint : String
deriving DecidableEq

/-- `EphemeralKeys` from `src/types.ts`. -/
structure EphemeralKeys (Key : Type) where
  publicKey : Key
  privateKey : Key
deriving DecidableEq

/-- The successful result of `verifyAndDeriveSession`. -/
structure SessionResult where
  sessionFingerprint : String
  remoteIdentityFingerprint : String
deriving DecidableEq

/-- `SecurityContext` from `src/types.ts` (`sessionSecret` is declared
optional there and never populated by the component code). -/
structure SecurityContext where
  isVerified : Bool
  safetyFingerprint : String
  remoteIdentityFingerprint : String
  sessionSecret : Option Bytes
  lastRotation : Option Nat
deriving DecidableEq

/-- The external primitives used by the service: Web Crypto operations plus
`JSON.stringify` / `JSON.parse` and `btoa` / `atob`.  Operations whose Web
Crypto counterpart can reject, and `JSON.parse` / `atob` which can throw,
return `Option`. -/
structure CryptoPrims (Key Jwk : Type) where
  /-- one draw of `generateKey` for the ECDSA identity pair
  (public, private). -/
  generateSigningPair : Key × Key
  /-- `exportKey('jwk', k)`. -/
  exportJwk : Key → Jwk
  /-- `JSON.stringify` on a JWK. -/
  stringifyJson : Jwk → String
  /-- `JSON.parse` of a stored JWK string (throws on bad input). -/
  parseJson : String → Option Jwk
  /-- `importKey('jwk', _, ECDSA, _, [verify])` (throws on bad input). -/
  importVerifyKey : Jwk → Option Key
  /-- `importKey('jwk', _, ECDSA, _, [sign])` (throws on bad input). -/
  importSignKey : Jwk → Option Key
  /-- `importKey('jwk', _, ECDH, _, [])` (throws on bad input). -/
  importEcdhKey : Jwk → Option Key
  /-- `sign(ECDSA/SHA-256, priv, data)`. -/
  sign : Key → Bytes → Bytes
  /-- `verify(ECDSA/SHA-256, pub, sig, data)`. -/
  verify : Key → Bytes → Bytes → Bool
  /-- `deriveBits(ECDH pub, local priv, 256)` (throws on bad input);
  arguments are (local private key, remote public key). -/
  deriveBits : Key → Key → Option Bytes
  /-- `exportKey('spki', k)`. -/
  exportSpki : Key → Bytes
  /-- `digest('SHA-256', data)`. -/
  sha256 : Bytes → Bytes
  /-- `window.atob` (throws on invalid base64). -/
  atob : String → Option String
  /-- `window.btoa`. -/
  btoa : String → String

/-- JS `String.prototype.padStart(n, c)` with a one-character pad string,
on the underlying character sequence. -/
def padStartList (l : List Char) (n : Nat) (c : Char) : List Char :=
  List.replicate (n - l.length) c ++ l

/-- JS `Array.prototype.join(sep)`. -/
def jsJoin (sep : String) : List String → String
  | [] => ""
  | [s] => s
  | s :: rest => s ++ sep ++ jsJoin sep rest

/-- `new TextEncoder().encode(s)`: the JS string as a byte sequence.  We
model it as the sequence of code points (the claims depend only on the
encoding being a function of the string). -/
def strBytes (s : String) : Bytes := s.data.map Char.toNat

/-- `arrayBufferToBase64` (secureProtocolService.ts lines 189-197): build a
binary string with `String.fromCharCode` over the bytes, then `btoa`. -/
def arrayBufferToBase64 (btoa : String → String) (bytes : Bytes) : String :=
  btoa (String.mk (bytes.map Char.ofNat))

/-- `base64ToArrayBuffer` (lines 199-207): `atob`, then `charCodeAt` on
each character of the binary string. -/
def base64ToArrayBuffer (atob : String → Option String) (s : String) :
    Option Bytes :=
  (atob s).map (fun bin => bin.data.map Char.toNat)

/-- One byte of `arrayBufferToHex`: `b.toString(16).padStart(2, '0')`.
JS `Number.prototype.toString(16)` on a small natural is `Nat.toDigits 16`
(lower-case hex digits). -/
def byteToHex (b : Nat) : List Char :=
  padStartList (Nat.toDigits 16 b) 2 '0'

/-- `arrayBufferToHex` (lines 209-213): map bytes to two-character hex and
`join('')`. -/
def arrayBufferToHex (bytes : Bytes) : String :=
  jsJoin "" (bytes.map (fun b => String.mk (byteToHex b)))

/-- `computeKeyFingerprint` (lines 183-187): SHA-256 over the spki export,
rendered as hex, then `substring(0, 16)` (the first 16 characters). -/
def computeKeyFingerprint {Key Jwk : Type} (C : CryptoPrims Key Jwk)
    (key : Key) : String :=
  String.mk ((arrayBufferToHex (C.sha256 (C.exportSpki key))).data.take 16)

/-- `DataView.prototype.getUint16(off)` (big-endian default) over the
digest bytes. -/
def getUint16 (bytes : Bytes) (off : Nat) : Nat :=
  256 * bytes.getD off 0 + bytes.getD (off + 1) 0

/-- `formatFingerprint` (lines 215-225): four 16-bit big-endian blocks from
the first 8 bytes, each `toString()`-ed (decimal, `Nat.toDigits 10`) and
`padStart(5, '0')`-ed, joined with a space. -/
def formatFingerprint (bytes : Bytes) : String :=
  jsJoin " " ((List.range 4).map (fun i =>
    String.mk (padStartList (Nat.toDigits 10 (getUint16 bytes (i * 2))) 5 '0')))

/-- The JS default sort comparator on strings: lexicographic comparison of
the code-unit sequences (on the ASCII hex fingerprints this is applied to,
code units and code points coincide). -/
def jsLeList : List Char → List Char → Bool
  | [], _ => true
  | _ :: _, [] => false
  | c₁ :: r₁, c₂ :: r₂ =>
    if c₁ = c₂ then jsLeList r₁ r₂ else decide (c₁.toNat < c₂.toNat)

/-- Lexicographic `≤` on JS strings. -/
def jsStringLe (a b : String) : Bool := jsLeList a.data b.data

/-- JS `[a, b].sort()` (default lexicographic comparator) on the
two-element fingerprint array. -/
def sortPair (a b : String) : List String :=
  if jsStringLe a b then [a, b] else [b, a]

/-- The hash input of step 4 of `verifyAndDeriveSession` (lines 157-164):
sorted fingerprints joined with `':'`, then `':'` and the base64 shared
secret. -/
def deriveSafetyInput (btoa : String → String)
    (localIdFps remoteIdFps : String) (sharedBits : Bytes) : String :=
  let sortedIds := jsJoin ":" (sortPair localIdFps remoteIdFps)
  let secretString := arrayBufferToBase64 btoa sharedBits
  sortedIds ++ ":" ++ secretString

/-- The safety number of `verifyAndDeriveSession` (lines 164-168): SHA-256
of the hash input, rendered by `formatFingerprint`. -/
def deriveSafetyNumber (sha256 : Bytes → Bytes) (btoa : String → String)
    (localIdFps remoteIdFps : String) (sharedBits : Bytes) : String :=
  formatFingerprint (sha256 (strBytes
    (deriveSafetyInput btoa localIdFps remoteIdFps sharedBits)))

/-- The body of the `try` block of `verifyAndDeriveSession` (lines
111-174).  The outer `Option` is a thrown exception (caught at the
boundary), the inner `Option` is the explicit `return null` taken when the
signature is invalid. -/
def verifyPipeline {Key Jwk : Type} (C : CryptoPrims Key Jwk)
    (localIdentity : CryptoIdentity Key) (localEphemeral : EphemeralKeys Key)
    (remotePayload : HandshakePayload Jwk) : Option (Option SessionResult) :=
  match C.importVerifyKey remotePayload.identityPublicKey with
  | none => none
  | some remoteIdPub =>
    match C.importEcdhKey remotePayload.ephemeralPublicKey with
    | none => none
    | some remoteEphPub =>
      let dataToVerify := strBytes (C.stringifyJson remotePayload.ephemeralPublicKey)
      match base64ToArrayBuffer C.atob remotePayload.signature with
      | none => none
      | some signature =>
        let isValid := C.verify remoteIdPub signature dataToVerify
        if !isValid then
          some none
        else
          match C.deriveBits localEphemeral.privateKey remoteEphPub with
          | none => none
          | some sharedBits =>
            let remoteIdFps := computeKeyFingerprint C remoteIdPub
            some (some
              { sessionFingerprint :=
                  deriveSafetyNumber C.sha256 C.btoa
                    localIdentity.publicKeyFingerprint remoteIdFps sharedBits
                remoteIdentityFingerprint := remoteIdFps })

/-- `verifyAndDeriveSession` (lines 106-179): the pipeline inside
`try ... catch`, with any exception converted to `null`. -/
def verifyAndDeriveSession {Key Jwk : Type} (C : CryptoPrims Key Jwk)
    (localIdentity : CryptoIdentity Key) (localEphemeral : EphemeralKeys Key)
    (remotePayload : HandshakePayload Jwk) : Option SessionResult :=
  match verifyPipeline C localIdentity localEphemeral remotePayload with
  | none => none
  | some r => r

/-- `createHandshakePayload` (secureProtocolService.ts lines 80-104): export
both public keys as JWK, sign the stringified ephemeral JWK with the
identity private key, package with the discriminator and the current time
(`Date.now()` is passed in as `now`). -/
def createHandshakePayload {Key Jwk : Type} (C : CryptoPrims Key Jwk)
    (identity : CryptoIdentity Key) (ephemeralKey : EphemeralKeys Key)
    (type : HandshakeType) (now : Nat) : HandshakePayload Jwk :=
  let ephPubJwk := C.exportJwk ephemeralKey.publicKey
  let idPubJwk := C.exportJwk identity.publicKey
  let dataToSign := strBytes (C.stringifyJson ephPubJwk)
  let signatureBuffer := C.sign identity.privateKey dataToSign
  { type := type
    identityPublicKey := idPubJwk
    ephemeralPublicKey := ephPubJwk
    signature := arrayBufferToBase64 C.btoa signatureBuffer
    timestamp := now }

/-! ### The connection handler of `src/components/P2PCall.tsx`

`setupSecureDataConnection` (lines 226-290) and the rotation interval
(lines 293-331) keep their mutable state in React refs / state cells:
`ephemeralKeysRef` and `securityContext`.  We model that state explicitly
and each event handler as a function from state (plus the event data, the
connection-open flag, and the current time `Date.now()`) to a new state
together with the messages sent, whether `conn.close()` was called and
whether the security-alert error was set.  `STATUS` messages and media
handling are outside the protocol and are not modelled. -/

/-- The mutable cells read and written by the handshake handlers:
`ephemeralKeysRef.current` and the `securityContext` state. -/
structure HandlerState (Key : Type) where
  ephemeralKeys : Option (EphemeralKeys Key)
  securityContext : Option SecurityContext
deriving DecidableEq

/-- What one handler invocation did: the new state, the payloads passed to
`conn.send`, whether `conn.close()` ran, whether the security alert was
raised. -/
structure HandlerOutput (Key Jwk : Type) where
  state : HandlerState Key
  sent : List (HandshakePayload Jwk)
  closedConn : Bool
  securityAlert : Bool
deriving DecidableEq

/-- The `conn.on('open')` handler (P2PCall.tsx lines 231-242): send an
`INIT` payload built from the identity and the ephemeral pair generated at
setup, guarded by `conn.open`.  (The `STATUS` send is not a handshake
payload and is not modelled.) -/
def handleOpen {Key Jwk : Type} (C : CryptoPrims Key Jwk)
    (currentIdentity : CryptoIdentity Key) (ephKeys : EphemeralKeys Key)
    (connOpen : Bool) (now : Nat) : List (HandshakePayload Jwk) :=
  if connOpen then
    [createHandshakePayload C currentIdentity ephKeys .secureHandshakeInit now]
  else []

/-- The handshake branch of the `conn.on('data')` handler (P2PCall.tsx
lines 244-281), for a payload whose `type` is one of the three handshake
discriminators:
* no ephemeral pair held → plain `return` (lines 251);
* verify with the held pair; on success replace the security context
  (fresh object literal, `lastRotation: Date.now()`), and for `INIT` only,
  send a `RESPONSE` built from `ephemeralKeysRef.current` (lines 260-276);
* on failure set the security alert and close (lines 277-280). -/
def handleData {Key Jwk : Type} (C : CryptoPrims Key Jwk)
    (currentIdentity : CryptoIdentity Key) (connOpen : Bool) (now : Nat)
    (st : HandlerState Key) (data : HandshakePayload Jwk) :
    HandlerOutput Key Jwk :=
  match st.ephemeralKeys with
  | none => ⟨st, [], false, false⟩
  | some ephKeys =>
    match verifyAndDeriveSession C currentIdentity ephKeys data with
    | some result =>
      let newCtx : SecurityContext :=
        { isVerified := true
          safetyFingerprint := result.sessionFingerprint
          remoteIdentityFingerprint := result.remoteIdentityFingerprint
          sessionSecret := none
          lastRotation := some now }
      let st' : HandlerState Key := { st with securityContext := some newCtx }
      if data.type = .secureHandshakeInit then
        let respPayload :=
          createHandshakePayload C currentIdentity ephKeys .secureHandshakeResp now
        ⟨st', if connOpen then [respPayload] else [], false, false⟩
      else
        ⟨st', [], false, false⟩
    | none =>
      ⟨st, [], true, true⟩

/-- One tick of the rotation interval (P2PCall.tsx lines 298-325): skip if
the connection is closed; otherwise install the freshly generated pair
`newKeys` into `ephemeralKeysRef`, send a `ROTATION` payload built from it,
and bump `lastRotation` on the existing context (if any). -/
def handleRotationTick {Key Jwk : Type} (C : CryptoPrims Key Jwk)
    (identity : CryptoIdentity Key) (connOpen : Bool) (now : Nat)
    (st : HandlerState Key) (newKeys : EphemeralKeys Key) :
    HandlerOutput Key Jwk :=
  if !connOpen then ⟨st, [], false, false⟩
  else
    let st' : HandlerState Key := { st with ephemeralKeys := some newKeys }
    let payload := createHandshakePayload C identity newKeys .secureKeyRotation now
    let st'' : HandlerState Key :=
      { st' with securityContext :=
          st'.securityContext.map (fun prev => { prev with lastRotation := some now }) }
    ⟨st'', [payload], false, false⟩

/-! ### The identity store (`getOrCreateIdentity`, lines 20-68) -/

/-- The two `localStorage` slots `nexus_identity_pub_v1` /
`nexus_identity_priv_v1` (`getItem` returns `null` or a string). -/
structure StorageState where
  pub : Option String
  priv : Option String
deriving DecidableEq

/-- JS truthiness of a `localStorage.getItem` result: `null` and the empty
string are falsy. -/
def truthy : Option String → Bool
  | none => false
  | some s => s != ""

/-- The `try` block of the load path (lines 26-42): `JSON.parse` and import
both halves, recompute the fingerprint.  Any throw falls back to
generation. -/
def loadStoredIdentity {Key Jwk : Type} (C : CryptoPrims Key Jwk)
    (storedPub storedPriv : String) : Option (CryptoIdentity Key) :=
  match C.parseJson storedPub with
  | none => none
  | some pubJwk =>
    match C.importVerifyKey pubJwk with
    | none => none
    | some publicKey =>
      match C.parseJson storedPriv with
      | none => none
      | some privJwk =>
        match C.importSignKey privJwk with
        | none => none
        | some privateKey =>
          some { publicKey := publicKey
                 privateKey := privateKey
                 publicKeyFingerprint := computeKeyFingerprint C publicKey }

/-- The generation path (lines 48-67): generate a signing pair, export both
halves as JWK, persist both stringified halves, compute the fingerprint. -/
def generateNewIdentity {Key Jwk : Type} (C : CryptoPrims Key Jwk) :
    CryptoIdentity Key × StorageState :=
  let keyPair := C.generateSigningPair
  let pubJwk := C.exportJwk keyPair.1
  let privJwk := C.exportJwk keyPair.2
  let st' : StorageState :=
    { pub := some (C.stringifyJson pubJwk)
      priv := some (C.stringifyJson privJwk) }
  ({ publicKey := keyPair.1
     privateKey := keyPair.2
     publicKeyFingerprint := computeKeyFingerprint C keyPair.1 }, st')

/-- `getOrCreateIdentity` (lines 20-68) as a function of the storage state:
if both slots hold truthy strings, try to load; on load failure or absence,
generate (writing both slots). -/
def getOrCreateIdentity {Key Jwk : Type} (C : CryptoPrims Key Jwk)
    (st : StorageState) : CryptoIdentity Key × StorageState :=
  if truthy st.pub && truthy st.priv then
    match loadStoredIdentity C (st.pub.getD "") (st.priv.getD "") with
    | some ident => (ident, st)
    | none => generateNewIdentity C
  else generateNewIdentity C

/-- Spec-side reading of a most-significant-first decimal digit string. -/
def decValue (l : List Char) : Nat :=
  l.foldl (fun acc c => 10 * acc + (c.toNat - 48)) 0

/-- Decimal digit characters. -/
def isDecDigitChar (c : Char) : Bool := '0' ≤ c && c ≤ '9'

/-- Lower-case hexadecimal digit characters (the alphabet of
`Number.prototype.toString(16)`). -/
def isHexDigitChar (c : Char) : Bool := ('0' ≤ c && c ≤ '9') || ('a' ≤ c && c ≤ 'f')

/-! ### Concrete instances used to evaluate the embedding

A concrete instantiation of the abstract primitives over `Key = Jwk = Nat`,
with a simple fold standing in for SHA-256, used to run the embedded
functions on explicit inputs in the witness and counterexample theorems. -/

/-- Concrete primitives: keys and JWKs are naturals, import/export is the
identity, signatures always verify, the derived secret records both ECDH
inputs, and the digest is a 32-byte repetition of a byte-valued fold. -/
def natPrims : CryptoPrims Nat Nat where
  generateSigningPair := (1, 2)
  exportJwk := fun k => k
  stringifyJson := fun j => Nat.repr j
  parseJson := fun s =>
    if s = Nat.repr (decValue s.data) then some (decValue s.data) else none
  importVerifyKey := fun j => some j
  importSignKey := fun j => some j
  importEcdhKey := fun j => some j
  sign := fun _ data => data
  verify := fun _ _ _ => true
  deriveBits := fun priv pub => some [priv % 256, pub % 256]
  exportSpki := fun k => [k % 256]
  sha256 := fun data => List.replicate 32 (data.foldl (fun acc x => (acc * 31 + x) % 256) 7)
  atob := fun s => some s
  btoa := fun s => s

/-- `natPrims` with a verifier that always rejects (a forged signature). -/
def forgePrims : CryptoPrims Nat Nat :=
  { natPrims with verify := fun _ _ _ => false }

/-- `natPrims` with an identity-key import that always throws. -/
def noImportPrims : CryptoPrims Nat Nat :=
  { natPrims with importVerifyKey := fun _ => none }

/-- A concrete local identity (public key 1, private key 2). -/
def idAw : CryptoIdentity Nat := ⟨1, 2, computeKeyFingerprint natPrims 1⟩

/-- A concrete local ephemeral pair (public 3, private 4). -/
def ephAw : EphemeralKeys Nat := ⟨3, 4⟩

/-- A concrete incoming `INIT` payload (remote identity key 5, remote
ephemeral key 7). -/
def payInitW : HandshakePayload Nat := ⟨.secureHandshakeInit, 5, 7, "sig", 0⟩

/-- A concrete incoming `RESPONSE` payload. -/
def payRespW : HandshakePayload Nat := ⟨.secureHandshakeResp, 5, 7, "sig", 0⟩

/-- A concrete incoming `ROTATION` payload (new remote ephemeral key 9). -/
def payRotW : HandshakePayload Nat := ⟨.secureKeyRotation, 5, 9, "sig", 0⟩

/-- Handler state holding the ephemeral pair `ephAw` and no context. -/
def st8a : HandlerState Nat := ⟨some ephAw, none⟩

/-- The state after the `RESPONSE` `payRespW` has been processed (and has
consumed `ephAw` in its shared-secret derivation). -/
def st8b : HandlerState Nat := (handleData natPrims idAw true 1 st8a payRespW).state

/-- The session result of verifying `payRespW` against `ephAw`, written
out through the embedded derivation. -/
def resW : SessionResult :=
  ⟨deriveSafetyNumber natPrims.sha256 natPrims.btoa idAw.publicKeyFingerprint
      (computeKeyFingerprint natPrims 5) [4 % 256, 7 % 256],
    computeKeyFingerprint natPrims 5⟩

/-! ## Helper lemmas about `Nat.toDigits` (JS `Number.prototype.toString`) -/

theorem toDigitsCore_fuel {b : Nat} (hb : 2 ≤ b) (n : Nat) :
    ∀ fuel₁ fuel₂ ds, n < fuel₁ → n < fuel₂ →
      Nat.toDigitsCore b fuel₁ n ds = Nat.toDigitsCore b fuel₂ n ds := by
  induction n using Nat.strong_induction_on with
  | _ n ih =>
    intro fuel₁ fuel₂ ds h₁ h₂
    cases fuel₁ with
    | zero => omega
    | succ f₁ =>
      cases fuel₂ with
      | zero => omega
      | succ f₂ =>
        simp only [Nat.toDigitsCore]
        by_cases h : n / b = 0
        · simp [h]
        · have hn : 0 < n := by
            rcases Nat.eq_zero_or_pos n with h0 | h0
            · exact absurd (by simp [h0]) h
            · exact h0
          have hdiv : n / b < n := Nat.div_lt_self hn (by omega)
          simp only [h, if_false]
          exact ih (n / b) hdiv f₁ f₂ _ (by omega) (by omega)

theorem toDigitsCore_append {b : Nat} (hb : 2 ≤ b) (n : Nat) :
    ∀ fuel ds, n < fuel →
      Nat.toDigitsCore b fuel n ds = Nat.toDigitsCore b fuel n [] ++ ds := by
  induction n using Nat.strong_induction_on with
  | _ n ih =>
    intro fuel ds hf
    cases fuel with
    | zero => omega
    | succ f =>
      simp only [Nat.toDigitsCore]
      by_cases h : n / b = 0
      · simp [h]
      · have hn : 0 < n := by
          rcases Nat.eq_zero_or_pos n with h0 | h0
          · exact absurd (by simp [h0]) h
          · exact h0
        have hdiv : n / b < n := Nat.div_lt_self hn (by omega)
        simp only [h, if_false]
        rw [ih (n / b) hdiv f (Nat.digitChar (n % b) :: ds) (by omega),
          ih (n / b) hdiv f [Nat.digitChar (n % b)] (by omega)]
        simp

/-- The recursive unfolding of `Nat.toDigits`: the digits of `n / b`
followed by the digit character of `n % b`. -/
theorem toDigits_step {b : Nat} (hb : 2 ≤ b) (n : Nat) :
    Nat.toDigits b n =
      (if n / b = 0 then [] else Nat.toDigits b (n / b)) ++
        [Nat.digitChar (n % b)] := by
  show Nat.toDigitsCore b (n + 1) n [] = _
  by_cases h : n / b = 0
  · simp only [Nat.toDigitsCore, h, if_true]
    simp [h]
  · have hn : 0 < n := by
      rcases Nat.eq_zero_or_pos n with h0 | h0
      · exact absurd (by simp [h0]) h
      · exact h0
    have hdiv : n / b < n := Nat.div_lt_self hn (by omega)
    simp only [Nat.toDigitsCore, h, if_false]
    rw [toDigitsCore_append hb (n / b) n _ (by omega),
      toDigitsCore_fuel hb (n / b) n (n / b + 1) [] (by omega) (by omega)]
    simp [Nat.toDigits, h]

theorem digitChar_dec_of_lt : ∀ m, m < 10 → isDecDigitChar (Nat.digitChar m) = true := by
  decide

theorem digitChar_val_of_lt : ∀ m, m < 10 → (Nat.digitChar m).toNat - 48 = m := by
  decide

theorem digitChar_hex_of_lt : ∀ m, m < 16 → isHexDigitChar (Nat.digitChar m) = true := by
  decide

theorem toDigits_ten_all_dec (n : Nat) :
    ∀ c ∈ Nat.toDigits 10 n, isDecDigitChar c = true := by
  induction n using Nat.strong_induction_on with
  | _ n ih =>
    intro c hc
    rw [toDigits_step (by omega) n] at hc
    rcases List.mem_append.mp hc with h | h
    · by_cases h0 : n / 10 = 0
      · simp [h0] at h
      · have hn : 0 < n := by
          rcases Nat.eq_zero_or_pos n with h1 | h1
          · exact absurd (by simp [h1]) h0
          · exact h1
        simp only [h0, if_false] at h
        exact ih (n / 10) (Nat.div_lt_self hn (by omega)) c h
    · rw [List.mem_singleton.mp h]
      exact digitChar_dec_of_lt (n % 10) (Nat.mod_lt n (by omega))

theorem toDigits_sixteen_all_hex (n : Nat) :
    ∀ c ∈ Nat.toDigits 16 n, isHexDigitChar c = true := by
  induction n using Nat.strong_induction_on with
  | _ n ih =>
    intro c hc
    rw [toDigits_step (by omega) n] at hc
    rcases List.mem_append.mp hc with h | h
    · by_cases h0 : n / 16 = 0
      · simp [h0] at h
      · have hn : 0 < n := by
          rcases Nat.eq_zero_or_pos n with h1 | h1
          · exact absurd (by simp [h1]) h0
          · exact h1
        simp only [h0, if_false] at h
        exact ih (n / 16) (Nat.div_lt_self hn (by omega)) c h
    · rw [List.mem_singleton.mp h]
      exact digitChar_hex_of_lt (n % 16) (Nat.mod_lt n (by omega))

theorem decValue_append_singleton (l : List Char) (d : Char) :
    decValue (l ++ [d]) = 10 * decValue l + (d.toNat - 48) := by
  simp [decValue, List.foldl_append]

theorem decValue_toDigits (n : Nat) : decValue (Nat.toDigits 10 n) = n := by
  induction n using Nat.strong_induction_on with
  | _ n ih =>
    rw [toDigits_step (by omega) n]
    have hmod : (Nat.digitChar (n % 10)).toNat - 48 = n % 10 :=
      digitChar_val_of_lt (n % 10) (Nat.mod_lt n (by omega))
    by_cases h0 : n / 10 = 0
    · have hlt : n < 10 := by omega
      simp only [h0, if_true, List.nil_append]
      have hone : decValue [Nat.digitChar (n % 10)] =
          (Nat.digitChar (n % 10)).toNat - 48 := by
        simp [decValue]
      rw [hone, hmod]
      omega
    · have hn : 0 < n := by
        rcases Nat.eq_zero_or_pos n with h1 | h1
        · exact absurd (by simp [h1]) h0
        · exact h1
      simp only [h0, if_false]
      rw [decValue_append_singleton, ih (n / 10) (Nat.div_lt_self hn (by omega)),
        hmod]
      omega

theorem decValue_pad_zeros (k : Nat) (l : List Char) :
    decValue (List.replicate k '0' ++ l) = decValue l := by
  induction k with
  | zero => simp
  | succ k ih =>
    have : List.replicate (k + 1) '0' ++ l = '0' :: (List.replicate k '0' ++ l) := by
      simp [List.replicate_succ]
    rw [this]
    simp only [decValue, List.foldl_cons]
    have hz : (10 * 0 + ('0'.toNat - 48)) = 0 := by decide
    rw [hz]
    exact ih

theorem padStartList_length (l : List Char) (n : Nat) (c : Char)
    (h : l.length ≤ n) : (padStartList l n c).length = n := by
  simp [padStartList]
  omega

theorem toDigits_ten_length_le (n k : Nat) (hk : 0 < k) (h : n < 10 ^ k) :
    (Nat.toDigits 10 n).length ≤ k :=
  Nat.toDigitsCore_length 10 (by omega) (n + 1) n k h hk

theorem toDigits_sixteen_length_le (n k : Nat) (hk : 0 < k) (h : n < 16 ^ k) :
    (Nat.toDigits 16 n).length ≤ k :=
  Nat.toDigitsCore_length 16 (by omega) (n + 1) n k h hk

/-! ## Helper lemmas about the JS string helpers -/

theorem jsJoin_empty_sep_data (l : List String) :
    (jsJoin "" l).data = (l.map String.data).flatten := by
  induction l with
  | nil => rfl
  | cons s rest ih =>
    cases rest with
    | nil => simp [jsJoin]
    | cons t rest' =>
      show (s ++ "" ++ jsJoin "" (t :: rest')).data = _
      simp [String.data_append, ih]

theorem flatten_take_of_length_eq (m : Nat) :
    ∀ (L : List (List Char)), (∀ x ∈ L, x.length = m) →
      ∀ k, (L.flatten).take (m * k) = (L.take k).flatten := by
  intro L
  induction L with
  | nil => intro _ k; simp
  | cons x L ih =>
    intro hx k
    cases k with
    | zero => simp
    | succ k =>
      have hxlen : x.length = m := hx x (by simp)
      have hrest : ∀ y ∈ L, y.length = m := fun y hy => hx y (by simp [hy])
      have : m * (k + 1) = x.length + m * k := by rw [hxlen]; ring
      rw [List.flatten_cons, this, List.take_append, List.take_succ_cons,
        List.flatten_cons, ih hrest k]

theorem padStartList_data_all {l : List Char} {n : Nat} {c : Char}
    (p : Char → Bool) (hc : p c = true) (hl : ∀ d ∈ l, p d = true) :
    ∀ d ∈ padStartList l n c, p d = true := by
  intro d hd
  rcases List.mem_append.mp hd with h | h
  · rw [List.eq_of_mem_replicate h]; exact hc
  · exact hl d h

theorem byteToHex_length {b : Nat} (hb : b < 256) : (byteToHex b).length = 2 :=
  padStartList_length _ 2 '0' (toDigits_sixteen_length_le b 2 (by omega) (by omega))

theorem byteToHex_all_hex (b : Nat) : ∀ c ∈ byteToHex b, isHexDigitChar c = true :=
  padStartList_data_all isHexDigitChar (by decide) (toDigits_sixteen_all_hex b)

theorem jsLeList_total : ∀ l₁ l₂ : List Char,
    jsLeList l₁ l₂ = true ∨ jsLeList l₂ l₁ = true := by
  intro l₁
  induction l₁ with
  | nil => intro l₂; left; rfl
  | cons c₁ r₁ ih =>
    intro l₂
    cases l₂ with
    | nil => right; rfl
    | cons c₂ r₂ =>
      by_cases hc : c₁ = c₂
      · subst hc
        rcases ih r₂ with h | h
        · left; simpa [jsLeList] using h
        · right; simpa [jsLeList] using h
      · have hne : c₂ ≠ c₁ := fun h => hc h.symm
        have htn : c₁.toNat ≠ c₂.toNat := fun h => hc (by
          have hcast := congrArg Char.ofNat h
          rwa [Char.ofNat_toNat, Char.ofNat_toNat] at hcast)
        rcases Nat.lt_or_ge c₁.toNat c₂.toNat with h | h
        · left; simp [jsLeList, hc, h]
        · right
          have : c₂.toNat < c₁.toNat := by omega
          simp [jsLeList, hne, this]

theorem jsLeList_antisymm : ∀ l₁ l₂ : List Char,
    jsLeList l₁ l₂ = true → jsLeList l₂ l₁ = true → l₁ = l₂ := by
  intro l₁
  induction l₁ with
  | nil =>
    intro l₂ _ h₂
    cases l₂ with
    | nil => rfl
    | cons c r => exact absurd h₂ (by simp [jsLeList])
  | cons c₁ r₁ ih =>
    intro l₂ h₁ h₂
    cases l₂ with
    | nil => exact absurd h₁ (by simp [jsLeList])
    | cons c₂ r₂ =>
      by_cases hc : c₁ = c₂
      · subst hc
        simp only [jsLeList, if_pos rfl] at h₁ h₂
        rw [ih r₂ h₁ h₂]
      · have hne : c₂ ≠ c₁ := fun h => hc h.symm
        simp only [jsLeList, if_neg hc, decide_eq_true_eq] at h₁
        simp only [jsLeList, if_neg hne, decide_eq_true_eq] at h₂
        omega

theorem sortPair_comm (a b : String) : sortPair a b = sortPair b a := by
  unfold sortPair
  cases h₁ : jsStringLe a b <;> cases h₂ : jsStringLe b a <;> simp
  · rcases jsLeList_total a.data b.data with h | h
    · exact absurd h (by simpa [jsStringLe] using h₁)
    · exact absurd h (by simpa [jsStringLe] using h₂)
  · have : a.data = b.data :=
      jsLeList_antisymm a.data b.data (by simpa [jsStringLe] using h₁)
        (by simpa [jsStringLe] using h₂)
    have hab : a = b := by
      cases a; cases b; exact congrArg String.mk this
    rw [hab]
    exact ⟨rfl, rfl⟩

/-! ## Claim theorems -/

/-- C1: the safety-number derivation of `verifyAndDeriveSession` (the hash
input built from the two identity fingerprints sorted lexicographically,
joined with `':'`, followed by `':'` and the base64 shared secret, and the
resulting formatted safety number) is invariant under exchanging which
fingerprint is local and which is remote, for every hash function, base64
encoder, fingerprint pair and shared secret: both peers of the same session
compute an identical value. -/
theorem deriveSafetyNumber_order_independent (sha256 : Bytes → Bytes)
    (btoaF : String → String) (fpA fpB : String) (shared : Bytes) :
    deriveSafetyInput btoaF fpA fpB shared =
      deriveSafetyInput btoaF fpB fpA shared ∧
    deriveSafetyNumber sha256 btoaF fpA fpB shared =
      deriveSafetyNumber sha256 btoaF fpB fpA shared := by
  have h : deriveSafetyInput btoaF fpA fpB shared =
      deriveSafetyInput btoaF fpB fpA shared := by
    unfold deriveSafetyInput
    rw [sortPair_comm]
  exact ⟨h, by unfold deriveSafetyNumber; rw [h]⟩

/-- C4: on a digest of at least 8 bytes (each a byte value),
`formatFingerprint` renders exactly four space-separated blocks; each block
is a string of exactly 5 decimal digits, and the decimal value of block `i`
is the 16-bit big-endian integer at byte offset `2*i` (no reduction
applied, zero-padded on the left to 5 digits). -/
theorem formatFingerprint_blocks (bytes : Bytes) (hlen : 8 ≤ bytes.length)
    (hbv : ∀ x ∈ bytes, x < 256) :
    ∃ blocks : List String,
      formatFingerprint bytes = jsJoin " " blocks ∧
      blocks.length = 4 ∧
      (∀ s ∈ blocks, s.length = 5 ∧ ∀ c ∈ s.data, isDecDigitChar c = true) ∧
      (∀ i, i < 4 →
        decValue ((blocks.getD i "").data) =
          256 * bytes.getD (2 * i) 0 + bytes.getD (2 * i + 1) 0) := by
  have hbyte : ∀ j, j < 8 → bytes.getD j 0 < 256 := by
    intro j hj
    have hjl : j < bytes.length := by omega
    rw [List.getD_eq_getElem bytes 0 hjl]
    exact hbv _ (List.getElem_mem hjl)
  have hu16 : ∀ i, i < 4 → getUint16 bytes (i * 2) < 65536 := by
    intro i hi
    have h1 : bytes.getD (i * 2) 0 < 256 := hbyte (i * 2) (by omega)
    have h2 : bytes.getD (i * 2 + 1) 0 < 256 := hbyte (i * 2 + 1) (by omega)
    unfold getUint16
    omega
  refine ⟨(List.range 4).map (fun i =>
    String.mk (padStartList (Nat.toDigits 10 (getUint16 bytes (i * 2))) 5 '0')),
    rfl, by simp, ?_, ?_⟩
  · intro s hs
    rcases List.mem_map.mp hs with ⟨i, hi, rfl⟩
    have hi4 : i < 4 := by simpa using List.mem_range.mp hi
    have hdlen : (Nat.toDigits 10 (getUint16 bytes (i * 2))).length ≤ 5 :=
      toDigits_ten_length_le _ 5 (by omega)
        (lt_of_lt_of_le (hu16 i hi4) (by norm_num))
    constructor
    · show (padStartList (Nat.toDigits 10 (getUint16 bytes (i * 2))) 5 '0').length = 5
      exact padStartList_length _ 5 '0' hdlen
    · exact padStartList_data_all isDecDigitChar (by decide)
        (toDigits_ten_all_dec _)
  · intro i hi
    have hgetd : ((List.range 4).map (fun i =>
        String.mk (padStartList (Nat.toDigits 10 (getUint16 bytes (i * 2))) 5 '0'))).getD i "" =
        String.mk (padStartList (Nat.toDigits 10 (getUint16 bytes (i * 2))) 5 '0') := by
      rw [List.getD_eq_getElem _ _ (by simpa using hi)]
      simp
    rw [hgetd]
    show decValue (padStartList (Nat.toDigits 10 (getUint16 bytes (i * 2))) 5 '0') = _
    unfold padStartList
    rw [decValue_pad_zeros, decValue_toDigits]
    unfold getUint16
    rw [Nat.mul_comm i 2]

/-- C5: for every public key (whose digest is a well-formed SHA-256 output:
at least 8 bytes, each a byte value), `computeKeyFingerprint` returns
exactly the first 16 hexadecimal characters — the hex rendering of the
first 8 bytes — of the SHA-256 digest of the exported (SPKI) form of the
key: it equals the hex of the first 8 digest bytes, has length exactly 16,
and consists of hex digits only. -/
theorem computeKeyFingerprint_first8 {Key Jwk : Type} (C : CryptoPrims Key Jwk)
    (key : Key) (hlen : 8 ≤ (C.sha256 (C.exportSpki key)).length)
    (hbv : ∀ x ∈ C.sha256 (C.exportSpki key), x < 256) :
    computeKeyFingerprint C key =
      arrayBufferToHex ((C.sha256 (C.exportSpki key)).take 8) ∧
    (computeKeyFingerprint C key).length = 16 ∧
    (∀ c ∈ (computeKeyFingerprint C key).data, isHexDigitChar c = true) := by
  set d := C.sha256 (C.exportSpki key) with hd
  have hdata : ∀ bs : Bytes, (arrayBufferToHex bs).data = (bs.map byteToHex).flatten := by
    intro bs
    rw [arrayBufferToHex, jsJoin_empty_sep_data]
    rw [List.map_map]
    congr 1
  have hlens : ∀ x ∈ d.map byteToHex, x.length = 2 := by
    intro x hx
    rcases List.mem_map.mp hx with ⟨b, hb, rfl⟩
    exact byteToHex_length (hbv b hb)
  have htake : (arrayBufferToHex d).data.take 16 =
      (arrayBufferToHex (d.take 8)).data := by
    rw [hdata d, hdata (d.take 8)]
    have h16 : (16 : Nat) = 2 * 8 := by norm_num
    rw [h16, flatten_take_of_length_eq 2 (d.map byteToHex) hlens 8, List.map_take]
  have hmain : computeKeyFingerprint C key = arrayBufferToHex (d.take 8) := by
    show String.mk ((arrayBufferToHex d).data.take 16) = _
    rw [htake]
  refine ⟨hmain, ?_, ?_⟩
  · show (String.mk ((arrayBufferToHex d).data.take 16)).length = 16
    have hflat : ((d.map byteToHex).flatten).length = 2 * d.length := by
      rw [List.length_flatten]
      have : (d.map byteToHex).map List.length = List.replicate d.length 2 := by
        apply List.eq_replicate_iff.mpr
        constructor
        · simp
        · intro x hx
          rcases List.mem_map.mp hx with ⟨y, hy, rfl⟩
          exact hlens y hy
      rw [this]
      simp [List.sum_replicate, smul_eq_mul, Nat.mul_comm]
    simp only [String.length, String.mk]
    rw [List.length_take, hdata d, hflat]
    omega
  · intro c hc
    have hc' : c ∈ (arrayBufferToHex d).data.take 16 := hc
    have hcfull : c ∈ (arrayBufferToHex d).data := List.mem_of_mem_take hc'
    rw [hdata d] at hcfull
    rcases List.mem_flatten.mp hcfull with ⟨x, hx, hcx⟩
    rcases List.mem_map.mp hx with ⟨b, _, rfl⟩
    exact byteToHex_all_hex b c hcx

/-- Failure propagation: whenever the signature check of
`verifyAndDeriveSession` would come out false (for whatever identity key
and decoded signature the payload yields), the whole call returns `none`,
for every choice of the ECDH primitive. -/
theorem verifyAndDeriveSession_none_of_bad_sig {Key Jwk : Type}
    (C : CryptoPrims Key Jwk) (localIdentity : CryptoIdentity Key)
    (localEphemeral : EphemeralKeys Key) (remotePayload : HandshakePayload Jwk)
    (hsig : ∀ k sig, C.importVerifyKey remotePayload.identityPublicKey = some k →
        base64ToArrayBuffer C.atob remotePayload.signature = some sig →
        C.verify k sig (strBytes (C.stringifyJson remotePayload.ephemeralPublicKey)) = false) :
    verifyAndDeriveSession C localIdentity localEphemeral remotePayload = none := by
  unfold verifyAndDeriveSession verifyPipeline
  cases hik : C.importVerifyKey remotePayload.identityPublicKey with
  | none => simp
  | some k =>
    cases hie : C.importEcdhKey remotePayload.ephemeralPublicKey with
    | none => simp
    | some ke =>
      cases hsg : base64ToArrayBuffer C.atob remotePayload.signature with
      | none => simp
      | some sig =>
        have hv := hsig k sig hik hsg
        simp [hv]

/-- C2: a handshake payload whose embedded signature does not validate
against the embedded long-term public key makes `verifyAndDeriveSession`
return the failure result `none` (never a `SessionResult`), and the
shared-secret derivation is never reached: the result is `none` no matter
what the ECDH primitive `deriveBits` would return. -/
theorem verifyAndDeriveSession_rejects_forgery {Key Jwk : Type}
    (C : CryptoPrims Key Jwk) (localIdentity : CryptoIdentity Key)
    (localEphemeral : EphemeralKeys Key) (remotePayload : HandshakePayload Jwk)
    (hsig : ∀ k sig, C.importVerifyKey remotePayload.identityPublicKey = some k →
        base64ToArrayBuffer C.atob remotePayload.signature = some sig →
        C.verify k sig (strBytes (C.stringifyJson remotePayload.ephemeralPublicKey)) = false) :
    verifyAndDeriveSession C localIdentity localEphemeral remotePayload = none ∧
    ∀ d : Key → Key → Option Bytes,
      verifyAndDeriveSession { C with deriveBits := d }
        localIdentity localEphemeral remotePayload = none := by
  refine ⟨verifyAndDeriveSession_none_of_bad_sig C _ _ _ hsig, fun d => ?_⟩
  exact verifyAndDeriveSession_none_of_bad_sig { C with deriveBits := d } _ _ _ hsig

/-- C3: `verifyAndDeriveSession` is total at its boundary (it is a total
function into `Option SessionResult`): a success is exactly a pipeline run
that neither threw nor hit the invalid-signature `return null` (so no
partial result is ever exposed); a thrown pipeline is converted to the
single failure `none`; and each fallible primitive step — identity-key
import, ephemeral-key import, base64 signature decode, ECDH `deriveBits` —
failing makes the whole call return `none`. -/
theorem verifyAndDeriveSession_total_boundary {Key Jwk : Type}
    (C : CryptoPrims Key Jwk) (localIdentity : CryptoIdentity Key)
    (localEphemeral : EphemeralKeys Key) (remotePayload : HandshakePayload Jwk) :
    (∀ r : SessionResult,
      verifyAndDeriveSession C localIdentity localEphemeral remotePayload = some r →
        verifyPipeline C localIdentity localEphemeral remotePayload = some (some r)) ∧
    (verifyPipeline C localIdentity localEphemeral remotePayload = none →
        verifyAndDeriveSession C localIdentity localEphemeral remotePayload = none) ∧
    (C.importVerifyKey remotePayload.identityPublicKey = none →
        verifyAndDeriveSession C localIdentity localEphemeral remotePayload = none) ∧
    (C.importEcdhKey remotePayload.ephemeralPublicKey = none →
        verifyAndDeriveSession C localIdentity localEphemeral remotePayload = none) ∧
    (base64ToArrayBuffer C.atob remotePayload.signature = none →
        verifyAndDeriveSession C localIdentity localEphemeral remotePayload = none) ∧
    (∀ ke, C.importEcdhKey remotePayload.ephemeralPublicKey = some ke →
        C.deriveBits localEphemeral.privateKey ke = none →
        verifyAndDeriveSession C localIdentity localEphemeral remotePayload = none) := by
  refine ⟨?_, ?_, ?_, ?_, ?_, ?_⟩
  · intro r h
    unfold verifyAndDeriveSession at h
    cases hp : verifyPipeline C localIdentity localEphemeral remotePayload with
    | none => rw [hp] at h; exact absurd h (by simp)
    | some v =>
      rw [hp] at h
      simp only [] at h
      rw [show v = some r from h]
  · intro h
    unfold verifyAndDeriveSession
    rw [h]
  · intro h
    unfold verifyAndDeriveSession verifyPipeline
    rw [h]
  · intro h
    unfold verifyAndDeriveSession verifyPipeline
    cases hik : C.importVerifyKey remotePayload.identityPublicKey with
    | none => simp
    | some k => rw [h]
  · intro h
    unfold verifyAndDeriveSession verifyPipeline
    cases hik : C.importVerifyKey remotePayload.identityPublicKey with
    | none => simp
    | some k =>
      cases hie : C.importEcdhKey remotePayload.ephemeralPublicKey with
      | none => simp
      | some ke => rw [h]
  · intro ke hke hderiv
    unfold verifyAndDeriveSession verifyPipeline
    cases hik : C.importVerifyKey remotePayload.identityPublicKey with
    | none => simp
    | some k =>
      rw [hke]
      cases hsg : base64ToArrayBuffer C.atob remotePayload.signature with
      | none => simp
      | some sig =>
        by_cases hv : C.verify k sig
            (strBytes (C.stringifyJson remotePayload.ephemeralPublicKey))
        · simp [hv, hderiv]
        · simp [hv]

/-- C9: when a handshake message (`INIT`, `RESPONSE` or `ROTATION`) arrives
while no local ephemeral pair is held, the handler is a no-op: the state
(including the `SecurityContext`) is unchanged, nothing is sent, the
connection is not closed and no alert is raised.  The right-hand side does
not involve the primitives, so no verification is performed, and the
handler is a total function, so nothing is thrown into caller code. -/
theorem handleData_noop_without_ephemeral {Key Jwk : Type}
    (C : CryptoPrims Key Jwk) (currentIdentity : CryptoIdentity Key)
    (connOpen : Bool) (now : Nat) (st : HandlerState Key)
    (data : HandshakePayload Jwk) (h : st.ephemeralKeys = none) :
    handleData C currentIdentity connOpen now st data = ⟨st, [], false, false⟩ := by
  unfold handleData
  rw [h]

/-- C9 witness: the no-op at a concrete state with no held pair. -/
theorem handleData_noop_without_ephemeral_witness :
    handleData natPrims idAw false 0 ⟨none, none⟩ payInitW =
      ⟨⟨none, none⟩, [], false, false⟩ :=
  handleData_noop_without_ephemeral natPrims idAw false 0 ⟨none, none⟩ payInitW rfl

/-- C10: on every successful verification of any handshake message
(whatever its discriminator — `INIT`, `RESPONSE` or `ROTATION`), the
handler installs a fresh `SecurityContext` whose `lastRotation` is the
current time, so `lastRotation` is non-`none` from the very first
successful handshake and records the most recent successful
verification. -/
theorem handleData_sets_lastRotation {Key Jwk : Type}
    (C : CryptoPrims Key Jwk) (currentIdentity : CryptoIdentity Key)
    (connOpen : Bool) (now : Nat) (st : HandlerState Key)
    (data : HandshakePayload Jwk) (eph : EphemeralKeys Key) (r : SessionResult)
    (heph : st.ephemeralKeys = some eph)
    (hver : verifyAndDeriveSession C currentIdentity eph data = some r) :
    (handleData C currentIdentity connOpen now st data).state.securityContext =
      some { isVerified := true
             safetyFingerprint := r.sessionFingerprint
             remoteIdentityFingerprint := r.remoteIdentityFingerprint
             sessionSecret := none
             lastRotation := some now } := by
  unfold handleData
  rw [heph]
  simp only [hver]
  by_cases ht : data.type = HandshakeType.secureHandshakeInit
  · simp [ht]
  · simp [ht]

/-- C10 witness: at a concrete successful `RESPONSE` verification the new
context carries `lastRotation = some 42`. -/
theorem handleData_sets_lastRotation_witness :
    (handleData natPrims idAw true 42 st8a payRespW).state.securityContext =
      some { isVerified := true
             safetyFingerprint := resW.sessionFingerprint
             remoteIdentityFingerprint := resW.remoteIdentityFingerprint
             sessionSecret := none
             lastRotation := some 42 } :=
  handleData_sets_lastRotation natPrims idAw true 42 st8a payRespW ephAw resW
    rfl (by decide)

/-- C7 (amended): when a received handshake message verifies successfully,
the handler replies only when the incoming message is an `INIT` — for
`RESPONSE` and `ROTATION` nothing is sent back — and what it sends is a
`RESPONSE` payload built from the *currently held* ephemeral pair (the
very pair that was used to verify), not from a freshly generated one. -/
theorem handleData_resp_only_for_init {Key Jwk : Type}
    (C : CryptoPrims Key Jwk) (currentIdentity : CryptoIdentity Key)
    (connOpen : Bool) (now : Nat) (st : HandlerState Key)
    (data : HandshakePayload Jwk) :
    ((data.type = HandshakeType.secureHandshakeResp ∨
      data.type = HandshakeType.secureKeyRotation) →
        (handleData C currentIdentity connOpen now st data).sent = []) ∧
    (∀ p ∈ (handleData C currentIdentity connOpen now st data).sent,
      data.type = HandshakeType.secureHandshakeInit ∧
      ∃ eph, st.ephemeralKeys = some eph ∧
        (∃ r, verifyAndDeriveSession C currentIdentity eph data = some r) ∧
        p = createHandshakePayload C currentIdentity eph
              HandshakeType.secureHandshakeResp now) := by
  cases hke : st.ephemeralKeys with
  | none =>
    constructor
    · intro _
      simp [handleData, hke]
    · intro p hp
      simp [handleData, hke] at hp
  | some eph =>
    cases hv : verifyAndDeriveSession C currentIdentity eph data with
    | none =>
      constructor
      · intro _
        simp [handleData, hke, hv]
      · intro p hp
        simp [handleData, hke, hv] at hp
    | some r =>
      by_cases ht : data.type = HandshakeType.secureHandshakeInit
      · constructor
        · intro hor
          rcases hor with h | h <;> rw [ht] at h <;> exact absurd h (by decide)
        · intro p hp
          refine ⟨ht, eph, rfl, ⟨r, hv⟩, ?_⟩
          cases connOpen with
          | false => simp [handleData, hke, hv, ht] at hp
          | true =>
            simp [handleData, hke, hv, ht] at hp
            exact hp
      · constructor
        · intro _
          simp [handleData, hke, hv, ht]
        · intro p hp
          simp [handleData, hke, hv, ht] at hp

/-- C7 (amended) witness: for a concrete verified `RESPONSE` nothing is
sent back. -/
theorem handleData_resp_only_for_init_witness :
    (handleData natPrims idAw true 3 st8a payRespW).sent = [] :=
  (handleData_resp_only_for_init natPrims idAw true 3 st8a payRespW).1 (Or.inl rfl)

/-- C7 counterexample: the `RESPONSE` the handler sends after a verified
`INIT` is *not* built from a freshly generated ephemeral pair.  At a
concrete state holding the pair `ephAw` (public key 3) — the same pair the
`conn.on('open')` handler has already transmitted in this side's own
`INIT` — the reply to an incoming `INIT` carries exactly the held pair's
public key again:  no new pair is generated (the handler has no key
generation at all), contradicting claimed freshness. -/
theorem handleData_resp_not_fresh_counterexample :
    (handleData natPrims idAw true 1 st8a payInitW).sent =
      [createHandshakePayload natPrims idAw ephAw
        HandshakeType.secureHandshakeResp 1] ∧
    (handleData natPrims idAw true 1 st8a payInitW).state.ephemeralKeys =
      some ephAw ∧
    ((handleData natPrims idAw true 1 st8a payInitW).sent.map
        (fun p => p.ephemeralPublicKey)) = [natPrims.exportJwk ephAw.publicKey] ∧
    ((handleOpen natPrims idAw ephAw true 0).map
        (fun p => p.ephemeralPublicKey)) = [natPrims.exportJwk ephAw.publicKey] := by
  refine ⟨by decide, by decide, by decide, by decide⟩

/-- C8 (amended): an ephemeral private key that has derived a shared secret
is *not* retired when a `RESPONSE` or `ROTATION` consumes it: processing
any handshake message leaves the held ephemeral pair unchanged (so later
handshake steps keep using it); only a rotation tick of the local interval
replaces the held pair, installing the freshly generated one (and a tick
with the transport closed is skipped and changes nothing). -/
theorem handler_ephemeral_replaced_only_by_rotation {Key Jwk : Type}
    (C : CryptoPrims Key Jwk) (currentIdentity : CryptoIdentity Key)
    (connOpen : Bool) (now : Nat) (st : HandlerState Key)
    (data : HandshakePayload Jwk) (newKeys : EphemeralKeys Key) :
    (handleData C currentIdentity connOpen now st data).state.ephemeralKeys =
      st.ephemeralKeys ∧
    (handleRotationTick C currentIdentity true now st newKeys).state.ephemeralKeys =
      some newKeys ∧
    (handleRotationTick C currentIdentity false now st newKeys).state.ephemeralKeys =
      st.ephemeralKeys := by
  refine ⟨?_, by simp [handleRotationTick], by simp [handleRotationTick]⟩
  cases hke : st.ephemeralKeys with
  | none => simp [handleData, hke]
  | some eph =>
    cases hv : verifyAndDeriveSession C currentIdentity eph data with
    | none => simp [handleData, hke, hv]
    | some r =>
      by_cases ht : data.type = HandshakeType.secureHandshakeInit
      · cases connOpen <;> simp [handleData, hke, hv, ht]
      · simp [handleData, hke, hv, ht]

/-- C8 counterexample: a concrete run in which the ephemeral private key
consumed by a verified `RESPONSE` is used again by a later handshake step.
The `RESPONSE` `payRespW` verifies against the held pair `ephAw`
(deriving a shared secret from `ephAw.privateKey`); afterwards the handler
still holds `ephAw`, and the subsequent `ROTATION` message is verified by
running the session derivation with the very same `ephAw` — its new
security context is exactly the one obtained from
`verifyAndDeriveSession` applied to the already-consumed pair. -/
theorem handleData_reuses_consumed_ephemeral_counterexample :
    (verifyAndDeriveSession natPrims idAw ephAw payRespW).isSome = true ∧
    st8b.ephemeralKeys = some ephAw ∧
    (handleData natPrims idAw true 2 st8b payRotW).state =
      ⟨some ephAw,
       (verifyAndDeriveSession natPrims idAw ephAw payRotW).map (fun r =>
         ⟨true, r.sessionFingerprint, r.remoteIdentityFingerprint, none, some 2⟩)⟩ ∧
    (verifyAndDeriveSession natPrims idAw ephAw payRotW).isSome = true := by
  refine ⟨by decide, by decide, by decide, by decide⟩

/-- C6: calling `getOrCreateIdentity` twice against the same (initially
empty) durable storage yields identities with an identical
`publicKeyFingerprint` both times; the first call generates the pair and
persists both encoded halves (the only write), and the second call loads
the persisted halves, leaving storage unchanged, and recomputes the same
fingerprint.  The hypotheses state that the platform codecs round-trip:
`JSON.parse` inverts `JSON.stringify` and key import inverts JWK export on
the generated pair, and the stringified JWKs are non-empty. -/
theorem getOrCreateIdentity_roundtrip {Key Jwk : Type} (C : CryptoPrims Key Jwk)
    (hparse₁ : C.parseJson (C.stringifyJson (C.exportJwk C.generateSigningPair.1)) =
      some (C.exportJwk C.generateSigningPair.1))
    (hparse₂ : C.parseJson (C.stringifyJson (C.exportJwk C.generateSigningPair.2)) =
      some (C.exportJwk C.generateSigningPair.2))
    (himp₁ : C.importVerifyKey (C.exportJwk C.generateSigningPair.1) =
      some C.generateSigningPair.1)
    (himp₂ : C.importSignKey (C.exportJwk C.generateSigningPair.2) =
      some C.generateSigningPair.2)
    (hne₁ : C.stringifyJson (C.exportJwk C.generateSigningPair.1) ≠ "")
    (hne₂ : C.stringifyJson (C.exportJwk C.generateSigningPair.2) ≠ "") :
    (getOrCreateIdentity C ⟨none, none⟩).1.publicKeyFingerprint =
      (getOrCreateIdentity C (getOrCreateIdentity C ⟨none, none⟩).2).1.publicKeyFingerprint ∧
    (getOrCreateIdentity C (getOrCreateIdentity C ⟨none, none⟩).2).2 =
      (getOrCreateIdentity C ⟨none, none⟩).2 ∧
    (getOrCreateIdentity C ⟨none, none⟩).2 =
      ⟨some (C.stringifyJson (C.exportJwk C.generateSigningPair.1)),
       some (C.stringifyJson (C.exportJwk C.generateSigningPair.2))⟩ := by
  have h1 : getOrCreateIdentity C ⟨none, none⟩ = generateNewIdentity C := by
    unfold getOrCreateIdentity
    simp [truthy]
  have h2 : generateNewIdentity C =
      (⟨C.generateSigningPair.1, C.generateSigningPair.2,
          computeKeyFingerprint C C.generateSigningPair.1⟩,
        ⟨some (C.stringifyJson (C.exportJwk C.generateSigningPair.1)),
         some (C.stringifyJson (C.exportJwk C.generateSigningPair.2))⟩) := rfl
  have hload : loadStoredIdentity C
      (C.stringifyJson (C.exportJwk C.generateSigningPair.1))
      (C.stringifyJson (C.exportJwk C.generateSigningPair.2)) =
      some ⟨C.generateSigningPair.1, C.generateSigningPair.2,
        computeKeyFingerprint C C.generateSigningPair.1⟩ := by
    unfold loadStoredIdentity
    simp only [hparse₁, himp₁, hparse₂, himp₂]
  have ht₁ : truthy (some (C.stringifyJson (C.exportJwk C.generateSigningPair.1))) = true := by
    simpa [truthy] using hne₁
  have ht₂ : truthy (some (C.stringifyJson (C.exportJwk C.generateSigningPair.2))) = true := by
    simpa [truthy] using hne₂
  have hsecond : getOrCreateIdentity C
      ⟨some (C.stringifyJson (C.exportJwk C.generateSigningPair.1)),
       some (C.stringifyJson (C.exportJwk C.generateSigningPair.2))⟩ =
      (⟨C.generateSigningPair.1, C.generateSigningPair.2,
          computeKeyFingerprint C C.generateSigningPair.1⟩,
        ⟨some (C.stringifyJson (C.exportJwk C.generateSigningPair.1)),
         some (C.stringifyJson (C.exportJwk C.generateSigningPair.2))⟩) := by
    unfold getOrCreateIdentity
    simp only [ht₁, ht₂, Bool.and_self, if_true, Option.getD_some, hload]
  rw [h1, h2, hsecond]
  exact ⟨rfl, rfl, rfl⟩

/-- C6 witness: the round-trip at the concrete primitives (identity JWK
codec over naturals rendered in decimal). -/
theorem getOrCreateIdentity_roundtrip_witness :
    (getOrCreateIdentity natPrims ⟨none, none⟩).1.publicKeyFingerprint =
      (getOrCreateIdentity natPrims
        (getOrCreateIdentity natPrims ⟨none, none⟩).2).1.publicKeyFingerprint ∧
    (getOrCreateIdentity natPrims
        (getOrCreateIdentity natPrims ⟨none, none⟩).2).2 =
      (getOrCreateIdentity natPrims ⟨none, none⟩).2 ∧
    (getOrCreateIdentity natPrims ⟨none, none⟩).2 =
      ⟨some (natPrims.stringifyJson (natPrims.exportJwk natPrims.generateSigningPair.1)),
       some (natPrims.stringifyJson (natPrims.exportJwk natPrims.generateSigningPair.2))⟩ :=
  getOrCreateIdentity_roundtrip natPrims (by decide) (by decide) (by decide)
    (by decide) (by decide) (by decide)

/-- C2 witness: with a verifier that rejects the concrete payload, the
session derivation fails. -/
theorem verifyAndDeriveSession_rejects_forgery_witness :
    verifyAndDeriveSession forgePrims idAw ephAw payRespW = none :=
  (verifyAndDeriveSession_rejects_forgery forgePrims idAw ephAw payRespW
    (fun _ _ _ _ => rfl)).1

/-- C3 witness: with an identity-key import that throws on the concrete
payload, the pipeline failure is converted to `none`. -/
theorem verifyAndDeriveSession_total_boundary_witness :
    verifyAndDeriveSession noImportPrims idAw ephAw payRespW = none :=
  (verifyAndDeriveSession_total_boundary noImportPrims idAw ephAw payRespW).2.2.1 rfl

/-- C4 witness: the block decomposition at a concrete 32-byte digest. -/
theorem formatFingerprint_blocks_witness :
    8 ≤ (List.range 32 : Bytes).length ∧
    (∀ x ∈ (List.range 32 : Bytes), x < 256) ∧
    (∃ blocks : List String,
      formatFingerprint (List.range 32) = jsJoin " " blocks ∧
      blocks.length = 4 ∧
      (∀ s ∈ blocks, s.length = 5 ∧ ∀ c ∈ s.data, isDecDigitChar c = true) ∧
      (∀ i, i < 4 →
        decValue ((blocks.getD i "").data) =
          256 * (List.range 32 : Bytes).getD (2 * i) 0 +
            (List.range 32 : Bytes).getD (2 * i + 1) 0)) :=
  ⟨by decide, by decide,
    formatFingerprint_blocks (List.range 32) (by decide) (by decide)⟩

/-- C5 witness: the fingerprint of the concrete key 1 under the concrete
primitives. -/
theorem computeKeyFingerprint_first8_witness :
    8 ≤ (natPrims.sha256 (natPrims.exportSpki 1)).length ∧
    (computeKeyFingerprint natPrims 1 =
      arrayBufferToHex ((natPrims.sha256 (natPrims.exportSpki 1)).take 8) ∧
    (computeKeyFingerprint natPrims 1).length = 16 ∧
    (∀ c ∈ (computeKeyFingerprint natPrims 1).data, isHexDigitChar c = true)) :=
  ⟨by decide, computeKeyFingerprint_first8 natPrims 1 (by decide) (by decide)⟩
